import Mathlib

/-!
Shallow embedding of the Magister client (`src/magister.js`).

Conventions used throughout:
* JavaScript `Date` values are modelled by their millisecond timestamp (`Int`).
* Promise chains are modelled by explicit sequencing in `Except`: a rejected
  promise is `Except.error`, a resolved one `Except.ok`.
* Every network request actually issued by an operation is recorded, in
  issue order, in a `List Call` returned alongside the outcome.  A request
  that is never sent (e.g. because the privilege check rejected first) never
  appears in the list.
* The HTTP transport and the remote portal are modelled by an `Env` value
  holding, per endpoint, the response (or failure) the portal would give.
-/

/-- The error taxonomy of the client.  `permissionError` is produced by the
privilege check, `authError` by login-failure classification
(`src/authError.js`), `validationError` by `createAppointment`'s required-field
check, `typeError` models a JavaScript `TypeError` thrown at runtime, and
`httpError` stands for any transport/decoding failure. -/
inductive MagErr where
  | permissionError (resource action : String)
  | authError (message : String)
  | validationError (message : String)
  | typeError (message : String)
  | httpError (message : String)
  deriving DecidableEq, Repr

/-- The `message` property of an error value. -/
def MagErr.message : MagErr → String
  | .permissionError resource action =>
      "missing privilege: " ++ action ++ " on " ++ resource
  | .authError m => m
  | .validationError m => m
  | .typeError m => m
  | .httpError m => m

/-- A privilege snapshot: resource name paired with its granted actions. -/
def PrivSet := List (String × List String)

/-- Modelled from the spec: the privilege cache (`src/privileges.js` is not
included under `src/`).  Lookup of a resource is case-insensitive (spec 4.2
prescribes normalising to a single case at population and lookup time); the
result says whether `action` is granted on `resource`.  Lower-casing is done
character by character so concrete instances evaluate by kernel reduction. -/
def lowerStr (s : String) : String :=
  String.mk (s.data.map Char.toLower)

/-- Modelled from the spec (continued): the case-insensitive lookup of a
resource in the snapshot. -/
def grants (privs : PrivSet) (resource action : String) : Bool :=
  match privs.find? (fun p => lowerStr p.1 == lowerStr resource) with
  | none => false
  | some p => p.2.contains action

/-- Modelled from the spec: `Privileges#needs(resource, action)`
(`src/privileges.js` is not included under `src/`): resolves when the cached
privilege set grants `action` on `resource` and otherwise rejects with a
`PermissionError`. -/
def needs (privs : PrivSet) (resource action : String) : Except MagErr Unit :=
  if grants privs resource action then .ok () else .error (.permissionError resource action)

/-- A network request issued through the `Http` transport. -/
inductive Call where
  | get (url : String)
  | post (url : String)
  | delete (url : String)
  deriving DecidableEq, Repr

/-- Stable insertion of `a` into `l`, keeping keys non-decreasing
(helper for `sortByKey`). -/
def insertByKey (key : α → Int) (a : α) : List α → List α
  | [] => [a]
  | b :: l => if key a ≤ key b then a :: b :: l else b :: insertByKey key a l

/-- Embeds lodash's stable `_.sortBy(l, key)` (ascending by `key`). -/
def sortByKey (key : α → Int) : List α → List α
  | [] => []
  | a :: l => insertByKey key a (sortByKey key l)

theorem mem_insertByKey (key : α → Int) (a x : α) (l : List α) :
    x ∈ insertByKey key a l ↔ x = a ∨ x ∈ l := by
  induction l with
  | nil => simp [insertByKey]
  | cons b l ih =>
    by_cases h : key a ≤ key b
    · simp [insertByKey, h]
    · simp only [insertByKey, if_neg h, List.mem_cons, ih]
      tauto

theorem sorted_insertByKey (key : α → Int) (a : α) (l : List α)
    (h : List.Pairwise (fun x y => key x ≤ key y) l) :
    List.Pairwise (fun x y => key x ≤ key y) (insertByKey key a l) := by
  induction l with
  | nil => simp [insertByKey]
  | cons b l ih =>
    rw [List.pairwise_cons] at h
    by_cases hab : key a ≤ key b
    · rw [insertByKey, if_pos hab]
      refine List.pairwise_cons.2 ⟨?_, List.pairwise_cons.2 ⟨h.1, h.2⟩⟩
      intro x hx
      rcases List.mem_cons.1 hx with hx | hx
      · exact hx ▸ hab
      · exact le_trans hab (h.1 x hx)
    · rw [insertByKey, if_neg hab]
      refine List.pairwise_cons.2 ⟨?_, ih h.2⟩
      intro x hx
      rcases (mem_insertByKey key a x l).1 hx with hx | hx
      · exact hx ▸ le_of_lt (lt_of_not_le hab)
      · exact h.1 x hx

theorem sorted_sortByKey (key : α → Int) (l : List α) :
    List.Pairwise (fun x y => key x ≤ key y) (sortByKey key l) := by
  induction l with
  | nil => simp [sortByKey]
  | cons a l ih => exact sorted_insertByKey key a _ ih

theorem mem_sortByKey (key : α → Int) (x : α) (l : List α) :
    x ∈ sortByKey key l ↔ x ∈ l := by
  induction l with
  | nil => simp [sortByKey]
  | cons a l ih =>
    rw [sortByKey, mem_insertByKey key a x _, ih, List.mem_cons]

/-- A decoded appointment item from the portal's JSON envelope: the fields the
embedded operations actually inspect (identifier, start time, teacher
references). -/
structure ApptRec where
  id : Int
  start : Int
  teachers : List Nat
  deriving DecidableEq, Repr

/-- A decoded absence record (`new AbsenceInfo(this, a)`): the embedding keeps
the appointment identifier the record points at (`i.appointment.id` in the
source). -/
structure AbsenceInfo where
  appointmentId : Int
  deriving DecidableEq, Repr

/-- An `Appointment` view as returned by `appointments()`: the decoded item
plus the `absenceInfo` field attached by the cross-linking loop. -/
structure Appointment where
  id : Int
  start : Int
  teachers : List Nat
  absenceInfo : Option AbsenceInfo
  deriving DecidableEq, Repr

/-- `new Appointment(this, a)`: wraps a decoded item; `absenceInfo` is not yet
attached. -/
def mkAppointment (r : ApptRec) : Appointment :=
  { id := r.id, start := r.start, teachers := r.teachers, absenceInfo := none }

/-- A decoded course (`new Course(this, c)`): only its sort key is relevant
here. -/
structure Course where
  id : Int
  start : Int
  deriving DecidableEq, Repr

/-- A decoded message folder (`new MessageFolder(this, m)`). -/
structure MessageFolder where
  id : Int
  deriving DecidableEq, Repr

/-- A decoded contact-person item from the portal. -/
structure PersonRec where
  id : Int
  deriving DecidableEq, Repr

/-- A `Person` view as returned by `persons()`; `filled` embeds the `_filled`
flag the source sets on every returned person. -/
structure Person where
  id : Int
  filled : Bool
  deriving DecidableEq, Repr

/-- The decoded `/api/account` response: the owner's person id and the
privilege list of the first group entry (`res.Persoon.Id`,
`res.Groep[0].Privileges`). -/
structure AccountRes where
  personId : Int
  privileges : List (String × List String)
  deriving Repr

/-- The portal/transport model: per endpoint, the response (or failure) the
remote side would produce, plus the client state the operations read
(`this._privileges`, `this._personUrl`, `this.school.url`).  Endpoints whose
response depends on request parameters are functions of those parameters. -/
structure Env where
  privs : PrivSet
  personUrl : String
  schoolUrl : String
  afsprakenItems : Int → Int → Except MagErr (List ApptRec)
  absentiesItems : Int → Int → Except MagErr (List AbsenceInfo)
  aanmeldingenItems : Except MagErr (List Course)
  mappenItems : Except MagErr (List MessageFolder)
  contactpersonenItems : String → String → Except MagErr (List PersonRec)
  fillTeacher : Nat → Except MagErr Nat
  createResp : Except MagErr String
  deleteResp : Except MagErr String
  postResp : Except MagErr String
  account : Except MagErr AccountRes

/-- Modelled from the spec: `util.urlDateConvert` (`src/util.js` is not
included under `src/`) renders a date in the portal's date-only query format;
the exact text is irrelevant to every claim, so the embedding renders the
date-only (midnight-floored) timestamp. -/
def urlDateConvert (d : Int) : String :=
  toString (d - d % 86400000)

/-- Embeds `_(arguments).filter(_.isDate).sortBy().value()` for a call that
passes exactly two dates: the earlier date becomes `from`, the later `to`. -/
def dateSortPair (d1 d2 : Int) : Int × Int :=
  if d1 ≤ d2 then (d1, d2) else (d2, d1)

theorem dateSortPair_comm (d1 d2 : Int) : dateSortPair d1 d2 = dateSortPair d2 d1 := by
  unfold dateSortPair
  rcases le_or_lt d1 d2 with h | h
  · rcases eq_or_lt_of_le h with rfl | h'
    · simp
    · rw [if_pos h, if_neg (not_le.2 h')]
  · rw [if_neg (not_le.2 h), if_pos (le_of_lt h)]

/-- The appointments URL template:
`` `${this._personUrl}/afspraken?van=${fromUrl}&tot=${toUrl}` ``. -/
def afsprakenUrl (env : Env) (van tot : Int) : String :=
  env.personUrl ++ "/afspraken?van=" ++ urlDateConvert van ++ "&tot=" ++ urlDateConvert tot

/-- The absences URL template:
`` `${this._personUrl}/absenties?van=${fromUrl}&tot=${toUrl}` ``. -/
def absentiesUrl (env : Env) (van tot : Int) : String :=
  env.personUrl ++ "/absenties?van=" ++ urlDateConvert van ++ "&tot=" ++ urlDateConvert tot

/-- The options bag of `appointments()` with its destructuring defaults. -/
structure ApptOptions where
  fillPersons : Bool := false
  fetchAbsences : Bool := true
  ignoreAbsenceErrors : Bool := true
  deriving DecidableEq, Repr

/-- The appointments promise chain (`magister.js` lines 64-69): privilege
check on `afspraken`/`read`, then the GET, then decoding each item into an
`Appointment`. -/
def appointmentsChain (env : Env) (van tot : Int) :
    List Call × Except MagErr (List Appointment) :=
  match needs env.privs "afspraken" "read" with
  | .error e => ([], .error e)
  | .ok () =>
    ([Call.get (afsprakenUrl env van tot)],
     match env.afsprakenItems van tot with
     | .error e => .error e
     | .ok items => .ok (items.map mkAppointment))

/-- The absences promise chain (`magister.js` lines 71-83): resolved empty
when `fetchAbsences` is off; otherwise privilege check on `Absenties`/`read`,
the GET, decoding — and, when `ignoreAbsenceErrors` is set, a `.catch` that
degrades any failure of that chain to the empty list. -/
def absencesChain (env : Env) (van tot : Int) (opts : ApptOptions) :
    List Call × Except MagErr (List AbsenceInfo) :=
  if opts.fetchAbsences then
    let base : List Call × Except MagErr (List AbsenceInfo) :=
      match needs env.privs "Absenties" "read" with
      | .error e => ([], .error e)
      | .ok () => ([Call.get (absentiesUrl env van tot)], env.absentiesItems van tot)
    if opts.ignoreAbsenceErrors then
      (base.1,
       match base.2 with
       | .error _ => .ok []
       | .ok items => .ok items)
    else base
  else ([], .ok [])

/-- The body of `appointments` once the date range is fixed: both fetch
chains are issued, then (`Promise.all`) every appointment gets `absenceInfo`
from the first absence record with a matching appointment id, the list is
sorted by `start`, and, when `fillPersons` is requested, every teacher
reference is resolved through `getFilled` (a person-detail fetch, modelled by
`Env.fillTeacher`). -/
def appointmentsAt (env : Env) (van tot : Int) (opts : ApptOptions) :
    List Call × Except MagErr (List Appointment) :=
  let apptC := appointmentsChain env van tot
  let absC := absencesChain env van tot opts
  (apptC.1 ++ absC.1,
   match apptC.2 with
   | .error e => .error e
   | .ok appts =>
     match absC.2 with
     | .error e => .error e
     | .ok absences =>
       let linked := appts.map (fun a =>
         { a with absenceInfo := absences.find? (fun i => i.appointmentId == a.id) })
       let sorted := sortByKey (fun a => a.start) linked
       if opts.fillPersons then
         sorted.mapM (fun a =>
           (a.teachers.mapM env.fillTeacher).map (fun ts => { a with teachers := ts }))
       else .ok sorted)

/-- Embeds `Magister#appointments(from, to, options)` for a call passing two
dates: `_(arguments).filter(_.isDate).sortBy()` sorts the two dates
ascending before the range is used, then the body runs on the sorted
range. -/
def appointments (env : Env) (d1 d2 : Int) (opts : ApptOptions) :
    List Call × Except MagErr (List Appointment) :=
  appointmentsAt env (dateSortPair d1 d2).1 (dateSortPair d1 d2).2 opts

/-- Embeds `Magister#courses()`: privilege check on `aanmeldingen`/`read`,
GET, decode, sort ascending by `start`. -/
def courses (env : Env) : List Call × Except MagErr (List Course) :=
  match needs env.privs "aanmeldingen" "read" with
  | .error e => ([], .error e)
  | .ok () =>
    ([Call.get (env.personUrl ++ "/aanmeldingen")],
     match env.aanmeldingenItems with
     | .error e => .error e
     | .ok items => .ok (sortByKey (fun c => c.start) items))

/-- Embeds `Magister#messageFolders()`: privilege check on
`berichten`/`read`, GET, decode; no sorting. -/
def messageFolders (env : Env) : List Call × Except MagErr (List MessageFolder) :=
  match needs env.privs "berichten" "read" with
  | .error e => ([], .error e)
  | .ok () =>
    ([Call.get (env.personUrl ++ "/berichten/mappen")],
     env.mappenItems)

/-- Collapses every run of spaces to a single `+`
(`query.replace(/ +/g, '+')`). -/
def collapseSpacesAux : Bool → List Char → List Char
  | _, [] => []
  | prevSpace, c :: rest =>
    if c = ' ' then
      if prevSpace then collapseSpacesAux true rest
      else '+' :: collapseSpacesAux true rest
    else c :: collapseSpacesAux false rest

/-- String version of `collapseSpacesAux`; the flag records whether the
previous character belonged to a space run. -/
def collapseSpaces (s : String) : String :=
  String.mk (collapseSpacesAux false s.data)

/-- The portal's person-type code (`magister.js` lines 220-224): a lookup
table with fallthrough `'Overig'`. -/
def personTypeCode (t : String) : String :=
  if t = "teacher" then "Personeel"
  else if t = "pupil" then "Leerling"
  else if t = "project" then "Project"
  else "Overig"

/-- The typed branch of `persons` (`magister.js` lines 220-237): maps the type
to its portal code, collapses spaces in the query, checks
`contactpersonen`/`read`, issues the GET and marks every decoded person as
filled.  The source reaches this code by re-entering `persons(query, type)`
with the already-trimmed query, whose guard clauses are then no-ops, so the
branch is embedded directly. -/
def personsTyped (env : Env) (query : String) (t : String) :
    List Call × Except MagErr (List Person) :=
  let code := personTypeCode t
  let q := collapseSpaces query
  match needs env.privs "contactpersonen" "read" with
  | .error e => ([], .error e)
  | .ok () =>
    ([Call.get (env.personUrl ++ "/contactpersonen?contactPersoonType=" ++ code ++ "&q=" ++ q)],
     match env.contactpersonenItems code q with
     | .error e => .error e
     | .ok items => .ok (items.map (fun p => { id := p.id, filled := true })))

/-- JavaScript `String#trim`: strip leading and trailing whitespace. -/
def jsTrim (s : String) : String :=
  String.mk (((s.data.dropWhile Char.isWhitespace).reverse.dropWhile Char.isWhitespace).reverse)

/-- `query != null ? query.trim() : ''` — the query normalisation at the top
of `persons`. -/
def personsQueryNorm (query : Option String) : String :=
  match query with
  | some s => jsTrim s
  | none => ""

/-- Embeds `Magister#persons(query, type)`: normalises the query, resolves
empty without any request when the trimmed query is shorter than 3
characters, fans out to the teacher and pupil variants when no type is given
(concatenating teachers before pupils), and otherwise runs the typed branch. -/
def persons (env : Env) (query : Option String) (ptype : Option String) :
    List Call × Except MagErr (List Person) :=
  let q := personsQueryNorm query
  if q.length < 3 then ([], .ok [])
  else
    match ptype with
    | none =>
      let teachers := personsTyped env q "teacher"
      let pupils := personsTyped env q "pupil"
      (teachers.1 ++ pupils.1,
       match teachers.2 with
       | .error e => .error e
       | .ok ts =>
         match pupils.2 with
         | .error e => .error e
         | .ok ps => .ok (ts ++ ps))
    | some t => personsTyped env q t

/-- A JavaScript value as it flows through `createAppointment`'s option bag:
a `Date` (by its millisecond timestamp), a string, or `null`. -/
inductive JSVal where
  | vdate (ms : Int)
  | vstr (s : String)
  | vnull
  deriving DecidableEq, Repr

/-- Midnight-floor of a millisecond timestamp (the date-only value of a
date-time). -/
def dayFloor (ms : Int) : Int :=
  ms - ms % 86400000

/-- Modelled from the spec: `util.date` (`src/util.js` is not included under
`src/`) normalises a `Date` to its date-only value, discarding the
time-of-day component.  Non-`Date` inputs are outside the spec and left
untouched. -/
def utilDate : JSVal → JSVal
  | .vdate ms => .vdate (dayFloor ms)
  | v => v

/-- Models the host's `Date#toString` rendering (the text JavaScript produces
when a `Date` is coerced to a string).  The exact human-readable format is
host- and timezone-dependent and irrelevant to every claim; the embedding
uses an injective rendering of the timestamp. -/
def jsDateToString (ms : Int) : String :=
  "Date(" ++ toString ms ++ ")"

/-- Embeds line 148 of `magister.js`:
`new Date(options.start.getTime()) + 1000*60*60*24`.
JavaScript's `+` on a `Date` and a `Number` applies `ToPrimitive` with the
default hint to the `Date`, which yields its string rendering, and then
concatenates — so the result is a string, not a date.  On a non-`Date`
receiver, `.getTime()` throws a `TypeError`. -/
def fullDayEnd : JSVal → Except MagErr JSVal
  | .vdate ms => .ok (.vstr (jsDateToString ms ++ toString (1000 * 60 * 60 * 24 : Int)))
  | _ => .error (.typeError "options.start.getTime is not a function")

/-- `JSON.stringify`-style serialisation of a `Date` (`Date#toJSON`): an
ISO-style rendering of the timestamp (exact format irrelevant to every
claim).  Strings and `null` have no `toJSON` method, so calling it on them
throws a `TypeError` — which is exactly what `options.end.toJSON()` does
after the full-day branch turned `options.end` into a string. -/
def jsToJSON : JSVal → Except MagErr String
  | .vdate ms => .ok ("iso:" ++ toString ms)
  | .vstr _ => .error (.typeError "toJSON is not a function")
  | .vnull => .error (.typeError "toJSON is not a function")

/-- The option bag of `createAppointment`.  `end_` embeds the source's `end`
field (a Lean keyword).  `type` is optional with JS-falsy semantics
(`options.type || 1`). -/
structure CreateOptions where
  description : Option String := none
  start : Option JSVal := none
  end_ : Option JSVal := none
  fullDay : Bool := false
  location : Option String := none
  content : Option String := none
  type : Option Int := none
  deriving DecidableEq, Repr

/-- `options[key] == null` for the option-bag values: absent or `null`. -/
def jsValNullish : Option JSVal → Bool
  | none => true
  | some .vnull => true
  | some _ => false

/-- The required-field test of `createAppointment` (lines 138-144): true when
any of `description`, `start`, `end` is `null` or absent. -/
def requiredMissing (o : CreateOptions) : Bool :=
  o.description.isNone || jsValNullish o.start || jsValNullish o.end_

/-- The validation error text built from
`` `Not all required fields for \`options\` are given, required are: [ ${required.join(', ')} ]` ``. -/
def requiredMsg : String :=
  "Not all required fields for `options` are given, required are: [ description, start, end ]"

/-- `_.escape` on one character: HTML-escapes `&`, `<`, `>`, `"` and the
apostrophe. -/
def escapeChar (c : Char) : String :=
  if c = '&' then "&amp;"
  else if c = '<' then "&lt;"
  else if c = '>' then "&gt;"
  else if c = Char.ofNat 34 then "&quot;"
  else if c = Char.ofNat 39 then "&#39;"
  else String.mk [c]

/-- `_.escape` on a string. -/
def htmlEscape (s : String) : String :=
  String.join (s.data.map escapeChar)

/-- The `Inhoud` payload field (lines 157-160): trim the content, escape it
when non-empty, else `null`. -/
def inhoudField (content : Option String) : Option String :=
  let c := jsTrim (content.getD "")
  if c.length > 0 then some (htmlEscape c) else none

/-- The `Type` payload field: `options.type || 1` (JS-falsy: `0`, `null` and
absence all fall back to `1`). -/
def typeField (t : Option Int) : Int :=
  match t with
  | some v => if v = 0 then 1 else v
  | none => 1

/-- The POST payload of `createAppointment` (lines 151-181), static
protocol-required fields included. -/
structure Payload where
  Omschrijving : String
  Start : String
  Einde : String
  Lokatie : String
  Inhoud : Option String
  Type_ : Int
  DuurtHeleDag : Bool
  InfoType : Int := 0
  WeergaveType : Int := 1
  Status : Int := 2
  HeeftBijlagen : Bool := false
  Id : Int := 0
  OpdrachtId : Int := 0
  deriving DecidableEq, Repr

/-- The appointment view `createAppointment` resolves with: the payload it
POSTed plus the canonical URL `this.school.url + res.Url`. -/
structure CreatedAppointment where
  payload : Payload
  url : String
  deriving DecidableEq, Repr

/-- Embeds `Magister#createAppointment(options)`.  Returns the option bag as
it stands when the call ends (the full-day branch mutates the caller's
object in place), the network requests issued, and the outcome.  Validation
failure rejects before anything else; the full-day branch overwrites
`options.start` with its date-only value and `options.end` with the result
of the `Date + Number` expression; serialising the payload (`.toJSON()` on
`options.start` then `options.end`) can throw a `TypeError`; only then comes
the `afspraken`/`create` privilege check and the POST. -/
def createAppointment (env : Env) (options : CreateOptions) :
    CreateOptions × List Call × Except MagErr CreatedAppointment :=
  if requiredMissing options then
    (options, [], .error (.validationError requiredMsg))
  else
    let step : CreateOptions × Except MagErr Unit :=
      if options.fullDay then
        let s' := utilDate (options.start.getD .vnull)
        let o1 := { options with start := some s' }
        match fullDayEnd s' with
        | .error e => (o1, .error e)
        | .ok e' => ({ o1 with end_ := some e' }, .ok ())
      else (options, .ok ())
    match step with
    | (o, .error e) => (o, [], .error e)
    | (o, .ok ()) =>
      match jsToJSON (o.start.getD .vnull) with
      | .error e => (o, [], .error e)
      | .ok startJson =>
        match jsToJSON (o.end_.getD .vnull) with
        | .error e => (o, [], .error e)
        | .ok endJson =>
          let payload : Payload :=
            { Omschrijving := o.description.getD ""
              Start := startJson
              Einde := endJson
              Lokatie := o.location.getD ""
              Inhoud := inhoudField o.content
              Type_ := typeField o.type
              DuurtHeleDag := o.fullDay }
          match needs env.privs "afspraken" "create" with
          | .error e => (o, [], .error e)
          | .ok () =>
            (o, [Call.post (env.personUrl ++ "/afspraken")],
             match env.createResp with
             | .error e => .error e
             | .ok u => .ok { payload := payload, url := env.schoolUrl ++ u })

/-- The construction options relevant to `login`. -/
structure LoginOpts where
  username : String := ""
  password : String := ""
  keepLoggedIn : Bool := true
  sessionId : Option String := none
  deriving DecidableEq, Repr

/-- JS truthiness of `options.sessionId`: present and non-empty. -/
def sessionIdTruthy (o : LoginOpts) : Bool :=
  match o.sessionId with
  | some s => s ≠ ""
  | none => false

/-- Character class of the session-id pattern `/[a-z\d-]+/`. -/
def isSidChar (c : Char) : Bool :=
  ('a' ≤ c && c ≤ 'z') || ('0' ≤ c && c ≤ '9') || c = '-'

/-- First maximal run of `isSidChar` characters in a character list (the
regex's first match). -/
def firstSidRun : List Char → Option (List Char)
  | [] => none
  | c :: rest =>
    if isSidChar c then some (c :: rest.takeWhile isSidChar)
    else firstSidRun rest

/-- `/[a-z\d-]+/.exec(header)[0]`: the first session-id-shaped token of a
`set-cookie` header; `none` models `exec` returning `null`, on which the
`[0]` subscript throws a `TypeError`. -/
def extractSessionId (s : String) : Option String :=
  (firstSidRun s.data).map String.mk

/-- `this.school.url.replace(/^https?/, 'https')`: force an `https` scheme
prefix. -/
def httpsify (s : String) : String :=
  if s.startsWith "https" then s
  else if s.startsWith "http" then "https" ++ s.drop 4
  else s

/-- The classification `.catch` of the session-negotiation chain (lines
273-280): a failure whose message is exactly one of the two localized
invalid-credentials strings is re-signalled as an `AuthError` with the same
message; everything else is re-thrown unchanged. -/
def invalidCreds1 : String :=
  "Ongeldig account of verkeerde combinatie van gebruikersnaam en wachtwoord. Probeer het nog eens of neem contact op met de applicatiebeheerder van de school."

/-- The second localized invalid-credentials string. -/
def invalidCreds2 : String :=
  "Je gebruikersnaam en/of wachtwoord is niet correct."

/-- `_.includes([...], err.message) ? new AuthError(err.message) : err`. -/
def classifyLoginError (err : MagErr) : MagErr :=
  if [invalidCreds1, invalidCreds2].contains err.message then
    .authError err.message
  else err

/-- The client state `login` leaves behind: the cookie header and the fields
set from the account response. -/
structure LoginState where
  cookie : String
  privileges : List (String × List String)
  personUrl : String
  pupilUrl : String
  deriving DecidableEq, Repr

/-- `setSessionId`: the cookie header derived from a session id and the
username. -/
def cookieFor (opts : LoginOpts) (sid : String) : String :=
  "SESSION_ID=" ++ sid ++ "; M6UserName=" ++ opts.username

/-- The session-negotiation chain of `login` (lines 260-280): DELETE the
current session, extract a session id from its `set-cookie` header (setting
the cookie at once), POST a new session, extract the new id — with the
classification `.catch` wrapped around the whole chain. -/
def negotiateSession (env : Env) (baseUrl : String) :
    List Call × Except MagErr String :=
  match env.deleteResp with
  | .error e => ([Call.delete (baseUrl ++ "/api/sessies/huidige")], .error (classifyLoginError e))
  | .ok header1 =>
    match extractSessionId header1 with
    | none =>
      ([Call.delete (baseUrl ++ "/api/sessies/huidige")],
       .error (classifyLoginError (.typeError "Cannot read properties of null (reading 0)")))
    | some _ =>
      match env.postResp with
      | .error e =>
        ([Call.delete (baseUrl ++ "/api/sessies/huidige"), Call.post (baseUrl ++ "/api/sessies")],
         .error (classifyLoginError e))
      | .ok header2 =>
        match extractSessionId header2 with
        | none =>
          ([Call.delete (baseUrl ++ "/api/sessies/huidige"), Call.post (baseUrl ++ "/api/sessies")],
           .error (classifyLoginError (.typeError "Cannot read properties of null (reading 0)")))
        | some sid =>
          ([Call.delete (baseUrl ++ "/api/sessies/huidige"), Call.post (baseUrl ++ "/api/sessies")],
           .ok sid)

/-- Embeds `Magister#login(forceNew)`.  When `forceNew` is off and a truthy
session id was supplied at construction, the negotiation is skipped and that
id adopted directly; otherwise the negotiation chain runs.  Either way the
cookie is set from the resulting id and the account endpoint is fetched to
populate the profile, privileges and per-person URLs; `login` resolves with
the session id. -/
def login (env : Env) (opts : LoginOpts) (forceNew : Bool) :
    List Call × Except MagErr (String × LoginState) :=
  let baseUrl := httpsify env.schoolUrl
  let neg : List Call × Except MagErr String :=
    if !forceNew && sessionIdTruthy opts then ([], .ok (opts.sessionId.getD ""))
    else negotiateSession env baseUrl
  match neg.2 with
  | .error e => (neg.1, .error e)
  | .ok sid =>
    (neg.1 ++ [Call.get (baseUrl ++ "/api/account")],
     match env.account with
     | .error e => .error e
     | .ok acc =>
       .ok (sid,
         { cookie := cookieFor opts sid
           privileges := acc.privileges
           personUrl := baseUrl ++ "/api/personen/" ++ toString acc.personId
           pupilUrl := baseUrl ++ "/api/leerlingen/" ++ toString acc.personId }))

/-- A concrete portal model used to instantiate theorems with hypotheses: a
fully privileged account with small fixed responses. -/
def envDemo : Env where
  privs := [("afspraken", ["read", "create"]), ("Absenties", ["read"]),
            ("aanmeldingen", ["read"]), ("berichten", ["read"]),
            ("contactpersonen", ["read"])]
  personUrl := "https://demo.magister.net/api/personen/7"
  schoolUrl := "http://demo.magister.net"
  afsprakenItems := fun _ _ => .ok [⟨2, 20, []⟩, ⟨1, 10, []⟩]
  absentiesItems := fun _ _ => .ok [⟨1⟩]
  aanmeldingenItems := .ok [⟨1, 5⟩, ⟨2, 3⟩]
  mappenItems := .ok [⟨1⟩]
  contactpersonenItems := fun _ _ => .ok [⟨4⟩]
  fillTeacher := fun t => .ok t
  createResp := .ok "/api/personen/7/afspraken/99"
  deleteResp := .ok "SESSION_ID=abc-123; path=/"
  postResp := .ok "SESSION_ID=def-456; path=/"
  account := .ok ⟨7, [("afspraken", ["read", "create"])]⟩

/-- The same portal with an empty privilege snapshot. -/
def envNoPriv : Env :=
  { envDemo with privs := [] }

/-- Appending distinct strings to a common prefix yields distinct strings. -/
theorem string_append_ne (s : String) {t u : String} (h : t ≠ u) : s ++ t ≠ s ++ u := by
  intro heq
  apply h
  apply String.ext
  have hd := congrArg String.data heq
  rw [String.data_append, String.data_append] at hd
  exact List.append_cancel_left hd

/-- The absences URL never coincides with the appointments URL: after the
shared `personUrl` prefix, the two templates differ at their third
character. -/
theorem absentiesUrl_ne_afsprakenUrl (env : Env) (v1 t1 v2 t2 : Int)
    (hv : urlDateConvert v1 = urlDateConvert v2) (ht : urlDateConvert t1 = urlDateConvert t2) :
    absentiesUrl env v1 t1 ≠ afsprakenUrl env v2 t2 := by
  unfold absentiesUrl afsprakenUrl
  rw [hv, ht]
  rw [String.append_assoc, String.append_assoc, String.append_assoc,
      String.append_assoc, String.append_assoc, String.append_assoc]
  apply string_append_ne
  intro h
  have hd := congrArg String.data h
  simp only [String.data_append] at hd
  simp only [List.cons_append, List.nil_append] at hd
  have h2 := congrArg (fun l => l[2]?) hd
  simp only [List.getElem?_cons_succ, List.getElem?_cons_zero] at h2
  exact absurd (Option.some.inj h2) (by decide)

/-- The request list of the absences chain is empty or the single absences
GET. -/
theorem absencesChain_calls (env : Env) (van tot : Int) (opts : ApptOptions) :
    (absencesChain env van tot opts).1 = [] ∨
    (absencesChain env van tot opts).1 = [Call.get (absentiesUrl env van tot)] := by
  unfold absencesChain needs
  by_cases hf : opts.fetchAbsences
  · by_cases hg : grants env.privs "Absenties" "read"
    · by_cases hi : opts.ignoreAbsenceErrors <;> simp [hf, hg, hi]
    · by_cases hi : opts.ignoreAbsenceErrors <;> simp [hf, hg, hi]
  · simp [hf]

/-- Claim C9: `appointments` is insensitive to the order of its two date
arguments: for every pair of dates and every options value,
`appointments(d1, d2, options)` and `appointments(d2, d1, options)` are the
same, because the date arguments are sorted ascending before the earlier one
is taken as `from` and the later as `to`. -/
theorem appointments_date_order_insensitive (env : Env) (d1 d2 : Int) (opts : ApptOptions) :
    appointments env d1 d2 opts = appointments env d2 d1 opts := by
  unfold appointments
  rw [dateSortPair_comm]

/-- Claim C7: when any of `description`, `start`, `end` is null or absent,
`createAppointment` rejects with a validation error whose message lists
exactly `description, start, end` as the required set, the caller's option
bag is untouched and no network request is issued. -/
theorem createAppointment_missing_required (env : Env) (opts : CreateOptions)
    (h : requiredMissing opts = true) :
    createAppointment env opts =
      (opts, [],
       .error (.validationError
         "Not all required fields for `options` are given, required are: [ description, start, end ]")) := by
  unfold createAppointment
  rw [h]
  rfl

/-- Claim C7 witness: `createAppointment({description:"d"})` (missing `start`
and `end`) rejects with the validation error and issues no request. -/
theorem createAppointment_missing_required_witness :
    createAppointment envDemo { description := some "d" } =
      ({ description := some "d" }, [],
       .error (.validationError
         "Not all required fields for `options` are given, required are: [ description, start, end ]")) :=
  createAppointment_missing_required envDemo { description := some "d" } (by decide)

/-- Claim C8: for every query whose trimmed form has fewer than 3 characters
(a null/undefined query included) and every type argument, `persons` resolves
to the empty list and issues no network request. -/
theorem persons_short_query (env : Env) (query : Option String) (ptype : Option String)
    (h : (personsQueryNorm query).length < 3) :
    persons env query ptype = ([], .ok []) := by
  unfold persons
  simp [h]

/-- Claim C8 witness: a query that trims to two characters resolves empty
without any request, type argument or not. -/
theorem persons_short_query_witness :
    persons envDemo (some " ab ") none = ([], .ok []) ∧
    persons envDemo (some " ab ") (some "teacher") = ([], .ok []) ∧
    persons envDemo none (some "pupil") = ([], .ok []) :=
  ⟨persons_short_query envDemo (some " ab ") none (by decide),
   persons_short_query envDemo (some " ab ") (some "teacher") (by decide),
   persons_short_query envDemo none (some "pupil") (by decide)⟩

/-- Claim C10: with the required fields present and `start` a `Date`, the
full-day branch of `createAppointment` mutates the caller's option bag in
place — `start` becomes its date-only normalisation and `end` the value
computed by the `Date + Number` expression — while without `fullDay` the bag
comes back untouched. -/
theorem createAppointment_frame (env : Env) (opts : CreateOptions) (ms : Int)
    (hreq : requiredMissing opts = false)
    (hstart : opts.start = some (.vdate ms)) :
    (createAppointment env opts).1 =
      (if opts.fullDay then
        { opts with
            start := some (.vdate (dayFloor ms))
            end_ := some (.vstr (jsDateToString (dayFloor ms) ++ toString (1000 * 60 * 60 * 24 : Int))) }
       else opts) := by
  unfold createAppointment
  rw [hreq]
  cases hfd : opts.fullDay
  · simp only [Bool.false_eq_true, if_false]
    rw [hstart]
    simp only [Option.getD_some, jsToJSON]
    split
    · rfl
    · split
      · rfl
      · split
        · rfl
        · rfl
  · simp only [if_true]
    rw [hstart]
    simp only [Option.getD_some, utilDate, fullDayEnd, jsToJSON]
    rfl

/-- Claim C10 witness: with `fullDay` set the returned option bag has `start`
normalised to midnight and `end` overwritten with the computed value; without
`fullDay` the bag is unchanged. -/
theorem createAppointment_frame_witness :
    (createAppointment envDemo
       { description := some "d", start := some (.vdate 3600000),
         end_ := some (.vdate 7200000), fullDay := true }).1 =
      (if ({ description := some "d", start := some (.vdate 3600000),
             end_ := some (.vdate 7200000), fullDay := true } : CreateOptions).fullDay then
        { ({ description := some "d", start := some (.vdate 3600000),
             end_ := some (.vdate 7200000), fullDay := true } : CreateOptions) with
            start := some (.vdate (dayFloor 3600000))
            end_ := some (.vstr (jsDateToString (dayFloor 3600000) ++ toString (1000 * 60 * 60 * 24 : Int))) }
       else { description := some "d", start := some (.vdate 3600000),
              end_ := some (.vdate 7200000), fullDay := true }) ∧
    (createAppointment envDemo
       { description := some "d", start := some (.vdate 3600000),
         end_ := some (.vdate 7200000), fullDay := false }).1 =
      (if ({ description := some "d", start := some (.vdate 3600000),
             end_ := some (.vdate 7200000), fullDay := false } : CreateOptions).fullDay then
        { ({ description := some "d", start := some (.vdate 3600000),
             end_ := some (.vdate 7200000), fullDay := false } : CreateOptions) with
            start := some (.vdate (dayFloor 3600000))
            end_ := some (.vstr (jsDateToString (dayFloor 3600000) ++ toString (1000 * 60 * 60 * 24 : Int))) }
       else { description := some "d", start := some (.vdate 3600000),
              end_ := some (.vdate 7200000), fullDay := false }) :=
  ⟨createAppointment_frame envDemo _ 3600000 (by decide) rfl,
   createAppointment_frame envDemo _ 3600000 (by decide) rfl⟩

/-- Claim C1: evaluation at a full-day input.  The claim says the computed
end time is a `Date` exactly 24 hours after the date-only value of `start`
and that the supplied `end` is merely ignored; the code instead evaluates
`new Date(options.start.getTime()) + 1000*60*60*24`, whose JavaScript value
is the *string* concatenation of the date's rendering with `"86400000"`, and
then `options.end.toJSON()` throws a `TypeError` — the call never resolves
for any full-day input.  The JSDoc above the function ("only `options.start`
is used to set the begin and the end") and spec section 9 confirm the
claim's reading is the intent, so this is a defect of the code. -/
theorem createAppointment_fullDay_end_bug :
    createAppointment envDemo
      { description := some "d", start := some (.vdate 3600000),
        end_ := some (.vdate 7200000), fullDay := true } =
      ({ description := some "d", start := some (.vdate 0),
         end_ := some (.vstr "Date(0)86400000"), fullDay := true },
       [], .error (.typeError "toJSON is not a function")) := by
  rfl

/-- Claim C4: when the session-negotiation chain of `login` fails at the
creation POST, a failure whose message is exactly one of the two known
localized invalid-credentials strings is re-signalled as an `AuthError`
carrying that message, and any other failure propagates unchanged. -/
theorem login_creation_failure_classified (env : Env) (opts : LoginOpts)
    (e : MagErr) (h1 sid1 : String)
    (hdel : env.deleteResp = .ok h1)
    (hext : extractSessionId h1 = some sid1)
    (hpost : env.postResp = .error e) :
    ((e.message = invalidCreds1 ∨ e.message = invalidCreds2) →
       (login env opts true).2 = .error (.authError e.message)) ∧
    (e.message ≠ invalidCreds1 → e.message ≠ invalidCreds2 →
       (login env opts true).2 = .error e) := by
  have hneg : (negotiateSession env (httpsify env.schoolUrl)).2 = .error (classifyLoginError e) := by
    unfold negotiateSession
    simp only [hdel, hext, hpost]
  have hlog : (login env opts true).2 = .error (classifyLoginError e) := by
    unfold login
    simp only [Bool.not_true, Bool.false_and, Bool.false_eq_true, if_false]
    rw [hneg]
  constructor
  · intro hm
    rw [hlog]
    unfold classifyLoginError
    rcases hm with hm | hm <;> simp [hm]
  · intro hm1 hm2
    rw [hlog]
    unfold classifyLoginError
    simp [hm1, hm2]

/-- Claim C4 witness: a creation POST failing with the first localized
invalid-credentials message makes `login` reject with an `AuthError`
carrying that message. -/
theorem login_creation_failure_classified_witness :
    (login { envDemo with postResp := .error (.httpError invalidCreds1) }
       { username := "u" } true).2 = .error (.authError invalidCreds1) :=
  (login_creation_failure_classified
     { envDemo with postResp := .error (.httpError invalidCreds1) }
     { username := "u" } (.httpError invalidCreds1)
     "SESSION_ID=abc-123; path=/" "abc-123" rfl rfl rfl).1 (Or.inl rfl)

/-- Claim C5: with a non-empty session id supplied at construction and
`forceNew` off, `login` issues no session-negotiation request (no DELETE of
the current session, no session-creation POST) and, when the account fetch
succeeds, resolves with exactly the supplied session id. -/
theorem login_presupplied_session (env : Env) (opts : LoginOpts) (sid : String)
    (hsid : opts.sessionId = some sid) (hne : sid ≠ "") :
    (∀ c ∈ (login env opts false).1,
       (∀ u, c ≠ Call.delete u) ∧ (∀ u, c ≠ Call.post u)) ∧
    (∀ acc, env.account = .ok acc →
       ∃ st, (login env opts false).2 = .ok (sid, st)) := by
  have htruthy : sessionIdTruthy opts = true := by
    unfold sessionIdTruthy
    rw [hsid]
    exact decide_eq_true hne
  have hlog : login env opts false =
      ([Call.get (httpsify env.schoolUrl ++ "/api/account")],
       match env.account with
       | .error e => .error e
       | .ok acc =>
         .ok (sid,
           { cookie := cookieFor opts sid
             privileges := acc.privileges
             personUrl := httpsify env.schoolUrl ++ "/api/personen/" ++ toString acc.personId
             pupilUrl := httpsify env.schoolUrl ++ "/api/leerlingen/" ++ toString acc.personId })) := by
    unfold login
    simp only [htruthy, Bool.not_false, Bool.true_and, if_true, hsid, Option.getD_some,
      List.nil_append]
  rw [hlog]
  constructor
  · intro c hc
    rcases List.mem_singleton.1 hc with rfl
    exact ⟨fun u h => Call.noConfusion h, fun u h => Call.noConfusion h⟩
  · intro acc hacc
    rw [hacc]
    exact ⟨_, rfl⟩

/-- Claim C5 witness: a client holding session id `abc-123` logs in without
any DELETE or POST and resolves with `abc-123`. -/
theorem login_presupplied_session_witness :
    (∀ c ∈ (login envDemo { username := "u", sessionId := some "abc-123" } false).1,
       (∀ u, c ≠ Call.delete u) ∧ (∀ u, c ≠ Call.post u)) ∧
    (∀ acc, envDemo.account = .ok acc →
       ∃ st, (login envDemo { username := "u", sessionId := some "abc-123" } false).2 =
         .ok ("abc-123", st)) :=
  login_presupplied_session envDemo { username := "u", sessionId := some "abc-123" }
    "abc-123" rfl (by decide)

/-- Claim C6: with the default options (`ignoreAbsenceErrors` true), an
absence-endpoint failure does not fail `appointments()`: the call still
resolves (the absence set degrading to empty) and every returned appointment
has no absence attached. -/
theorem appointments_absence_failure_degrades (env : Env) (d1 d2 : Int) (e : MagErr)
    (items : List ApptRec)
    (hpriv : grants env.privs "afspraken" "read" = true)
    (happt : env.afsprakenItems (dateSortPair d1 d2).1 (dateSortPair d1 d2).2 = .ok items)
    (habs : env.absentiesItems (dateSortPair d1 d2).1 (dateSortPair d1 d2).2 = .error e) :
    ∃ l, (appointments env d1 d2 {}).2 = .ok l ∧ ∀ a ∈ l, a.absenceInfo = none := by
  have hac : (appointmentsChain env (dateSortPair d1 d2).1 (dateSortPair d1 d2).2).2 =
      .ok (items.map mkAppointment) := by
    unfold appointmentsChain needs
    simp only [hpriv, if_true, happt]
  have hbc : (absencesChain env (dateSortPair d1 d2).1 (dateSortPair d1 d2).2 {}).2 =
      .ok [] := by
    unfold absencesChain needs
    by_cases hg : grants env.privs "Absenties" "read"
    · simp [hg, habs]
    · simp [hg]
  have hres : (appointments env d1 d2 {}).2 =
      .ok (sortByKey (fun a => a.start)
        ((items.map mkAppointment).map (fun a =>
          { a with absenceInfo := List.find? (fun i => i.appointmentId == a.id) ([] : List AbsenceInfo) }))) := by
    unfold appointments appointmentsAt
    simp only [hac, hbc, Bool.false_eq_true, if_false]
  refine ⟨_, hres, ?_⟩
  intro a ha
  rw [mem_sortByKey] at ha
  rcases List.mem_map.1 ha with ⟨a₀, _, rfl⟩
  rfl

/-- Claim C6 witness: with the absences endpoint failing, `appointments`
still resolves and no returned appointment carries absence info. -/
theorem appointments_absence_failure_degrades_witness :
    ∃ l, (appointments { envDemo with absentiesItems := fun _ _ => .error (.httpError "boom") }
            0 5 {}).2 = .ok l ∧ ∀ a ∈ l, a.absenceInfo = none :=
  appointments_absence_failure_degrades
    { envDemo with absentiesItems := fun _ _ => .error (.httpError "boom") }
    0 5 (.httpError "boom") [⟨2, 20, []⟩, ⟨1, 10, []⟩] (by decide) rfl rfl

/-- Claim C3: for `from <= to`, the list `appointments(from, to)` resolves
with is sorted non-decreasing by start time; every returned appointment whose
identifier matches a fetched absence record carries such a record as its
`absenceInfo`, and appointments without a matching record carry none. -/
theorem appointments_sorted_and_linked (env : Env) (d1 d2 : Int) (l : List Appointment)
    (hle : d1 ≤ d2)
    (hres : (appointments env d1 d2 {}).2 = .ok l) :
    List.Pairwise (fun a b => a.start ≤ b.start) l ∧
    ∀ abs, (absencesChain env d1 d2 {}).2 = .ok abs →
      ∀ a ∈ l,
        ((∃ r ∈ abs, r.appointmentId = a.id) →
           ∃ r ∈ abs, a.absenceInfo = some r ∧ r.appointmentId = a.id) ∧
        ((∀ r ∈ abs, r.appointmentId ≠ a.id) → a.absenceInfo = none) := by
  have hp : dateSortPair d1 d2 = (d1, d2) := by
    unfold dateSortPair
    rw [if_pos hle]
  simp only [appointments, hp, appointmentsAt] at hres
  rcases ha : (appointmentsChain env d1 d2).2 with e | appts
  · rw [ha] at hres
    exact absurd hres (by simp)
  rcases hb : (absencesChain env d1 d2 {}).2 with e | absences
  · rw [ha, hb] at hres
    exact absurd hres (by simp)
  rw [ha, hb] at hres
  simp only [Bool.false_eq_true, if_false, Except.ok.injEq] at hres
  subst hres
  constructor
  · exact sorted_sortByKey _ _
  · intro abs habs a hamem
    rcases Except.ok.inj habs with rfl
    rw [mem_sortByKey] at hamem
    rcases List.mem_map.1 hamem with ⟨a₀, _, rfl⟩
    cases hf : absences.find? (fun i => i.appointmentId == a₀.id) with
    | some r =>
      constructor
      · intro _
        refine ⟨r, List.mem_of_find?_eq_some hf, rfl, ?_⟩
        have := List.find?_some hf
        simpa using this
      · intro hall
        exact absurd (by simpa using List.find?_some hf)
          (hall r (List.mem_of_find?_eq_some hf))
    | none =>
      constructor
      · rintro ⟨r, hrmem, hrid⟩
        have := List.find?_eq_none.1 hf r hrmem
        exact absurd (by simpa using hrid) this
      · intro _
        exact rfl

/-- Claim C3 witness: on a concrete portal the returned list is sorted by
start and only the appointment with a matching absence record carries it. -/
theorem appointments_sorted_and_linked_witness :
    List.Pairwise (fun a b => a.start ≤ b.start)
      ([⟨1, 10, [], some ⟨1⟩⟩, ⟨2, 20, [], none⟩] : List Appointment) ∧
    ∀ abs, (absencesChain envDemo 0 5 {}).2 = .ok abs →
      ∀ a ∈ ([⟨1, 10, [], some ⟨1⟩⟩, ⟨2, 20, [], none⟩] : List Appointment),
        ((∃ r ∈ abs, r.appointmentId = a.id) →
           ∃ r ∈ abs, a.absenceInfo = some r ∧ r.appointmentId = a.id) ∧
        ((∀ r ∈ abs, r.appointmentId ≠ a.id) → a.absenceInfo = none) :=
  appointments_sorted_and_linked envDemo 0 5 _ (by decide) rfl

/-- Claim C2 counterexample: `persons` is a read operation, the privilege
set lacks `read` on its resource (`contactpersonen`), yet the call with a
short query resolves with an empty list instead of rejecting with a
`PermissionError`: the length guard runs before the privilege check. -/
theorem persons_short_query_skips_privilege_check :
    grants envNoPriv.privs "contactpersonen" "read" = false ∧
    persons envNoPriv (some "ab") none = ([], .ok []) :=
  ⟨rfl, rfl⟩

/-- Claim C2 (amended): every read operation invoked while the cached
privilege set lacks `read` on its resource — for `persons`, provided the
trimmed query has at least 3 characters, since shorter queries resolve empty
before any check — rejects with a `PermissionError`, and no request for that
operation's resource is ever issued. -/
theorem read_ops_reject_before_request (env : Env) (d1 d2 : Int) (opts : ApptOptions)
    (q : Option String) (t : Option String) :
    (grants env.privs "afspraken" "read" = false →
       (appointments env d1 d2 opts).2 = .error (.permissionError "afspraken" "read") ∧
       ∀ c ∈ (appointments env d1 d2 opts).1,
         c ≠ Call.get (afsprakenUrl env (dateSortPair d1 d2).1 (dateSortPair d1 d2).2)) ∧
    (grants env.privs "aanmeldingen" "read" = false →
       courses env = ([], .error (.permissionError "aanmeldingen" "read"))) ∧
    (grants env.privs "berichten" "read" = false →
       messageFolders env = ([], .error (.permissionError "berichten" "read"))) ∧
    (grants env.privs "contactpersonen" "read" = false →
       3 ≤ (personsQueryNorm q).length →
       persons env q t = ([], .error (.permissionError "contactpersonen" "read"))) := by
  refine ⟨?_, ?_, ?_, ?_⟩
  · intro h
    have hchain : appointmentsChain env (dateSortPair d1 d2).1 (dateSortPair d1 d2).2 =
        ([], .error (.permissionError "afspraken" "read")) := by
      unfold appointmentsChain needs
      rw [h]
      simp
    constructor
    · simp only [appointments, appointmentsAt, hchain]
    · intro c hc
      simp only [appointments, appointmentsAt, hchain, List.nil_append] at hc
      rcases absencesChain_calls env (dateSortPair d1 d2).1 (dateSortPair d1 d2).2 opts
        with h0 | h0 <;> rw [h0] at hc
      · exact absurd hc (List.not_mem_nil c)
      · rcases List.mem_singleton.1 hc with rfl
        intro heq
        injection heq with hurl
        exact absentiesUrl_ne_afsprakenUrl env _ _ _ _ rfl rfl hurl
  · intro h
    unfold courses needs
    rw [h]
    simp
  · intro h
    unfold messageFolders needs
    rw [h]
    simp
  · intro h hlen
    have hTyped : ∀ ty, personsTyped env (personsQueryNorm q) ty =
        ([], .error (.permissionError "contactpersonen" "read")) := by
      intro ty
      unfold personsTyped needs
      rw [h]
      simp
    simp only [persons]
    rw [if_neg (not_lt.2 hlen)]
    cases t with
    | none => simp [hTyped]
    | some ty => simp [hTyped]

/-- Claim C2 witness: with an empty privilege snapshot all four read
operations reject with the respective `PermissionError` and issue no request
for their resource (the date arguments even arrive unsorted). -/
theorem read_ops_reject_before_request_witness :
    ((appointments envNoPriv 3 1 {}).2 = .error (.permissionError "afspraken" "read") ∧
     ∀ c ∈ (appointments envNoPriv 3 1 {}).1,
       c ≠ Call.get (afsprakenUrl envNoPriv (dateSortPair 3 1).1 (dateSortPair 3 1).2)) ∧
    courses envNoPriv = ([], .error (.permissionError "aanmeldingen" "read")) ∧
    messageFolders envNoPriv = ([], .error (.permissionError "berichten" "read")) ∧
    persons envNoPriv (some "abc") none =
      ([], .error (.permissionError "contactpersonen" "read")) := by
  have h := read_ops_reject_before_request envNoPriv 3 1 {} (some "abc") none
  exact ⟨h.1 rfl, h.2.1 rfl, h.2.2.1 rfl, h.2.2.2 rfl (by decide)⟩
